import Mathlib

/-!
Shallow embedding of the GitLens code-lens provider
(`src/gitCodeLensProvider.ts`) and the git content provider, together with
proofs about the annotation-placement pass, the lazy blame memoization and
the resolve/action-dispatch step.

Machine conventions: editor line and character numbers are `Nat` (the source
uses JS numbers that stay small and non-negative on the paths modelled here;
the one spot where the source computes `length - 1` on a possibly empty line
is modelled with truncated `Nat` subtraction, which only affects the anchor
column of an annotation on an empty line and no property below depends on
it).  External host types (`Uri`, VS Code `Command` argument objects) are
projected to their pure data content.
-/

namespace GitLens

/-- VS Code symbol kinds used by the provider (the subset of the host enum
that the provider's switches mention, plus representative other kinds). -/
inductive SymbolKind
  | File
  | Module
  | Namespace
  | Package
  | Class
  | Method
  | Property
  | Field
  | Constructor
  | Enum
  | Interface
  | Function
  | Variable
  | Constant
  | Struct
  deriving DecidableEq, Repr

/-- The TS expression `SymbolKind[symbol.kind]`: the enum member's name. -/
def SymbolKind.name : SymbolKind → String
  | .File => "File"
  | .Module => "Module"
  | .Namespace => "Namespace"
  | .Package => "Package"
  | .Class => "Class"
  | .Method => "Method"
  | .Property => "Property"
  | .Field => "Field"
  | .Constructor => "Constructor"
  | .Enum => "Enum"
  | .Interface => "Interface"
  | .Function => "Function"
  | .Variable => "Variable"
  | .Constant => "Constant"
  | .Struct => "Struct"

/-- A VS Code position: zero-based line and character. -/
structure Position where
  line : Nat
  character : Nat
  deriving DecidableEq, Repr

/-- A VS Code range; the source's `end` field is spelled `end_`. -/
structure Range where
  start : Position
  end_ : Position
  deriving DecidableEq, Repr

/-- `Range.isSingleLine`: start and end on the same line. -/
def Range.isSingleLine (r : Range) : Bool := r.start.line == r.end_.line

/-- A document symbol as consumed by the provider: its kind and
`symbol.location.range`. -/
structure SymbolInformation where
  kind : SymbolKind
  range : Range
  deriving DecidableEq, Repr

/-- The text document data the provider reads: language id, dirty flag and
the text content as a list of lines. -/
structure TextDocument where
  languageId : String
  isDirty : Bool
  lines : List String
  deriving DecidableEq, Repr

/-- VS Code documents always have at least one line. -/
def TextDocument.lineCount (d : TextDocument) : Nat := max d.lines.length 1

/-- Length of the text of line `i` (0 when out of range, matching the empty
last line of an empty document). -/
def TextDocument.lineLength (d : TextDocument) (i : Nat) : Nat :=
  (d.lines.getD i "").length

/-- `document.validatePosition`: clamp a position into the document. -/
def TextDocument.validatePosition (d : TextDocument) (p : Position) : Position :=
  let line := min p.line (d.lineCount - 1)
  { line := line, character := min p.character (d.lineLength line) }

/-- `document.validateRange`: clamp both ends of a range into the document. -/
def TextDocument.validateRange (d : TextDocument) (r : Range) : Range :=
  { start := d.validatePosition r.start, end_ := d.validatePosition r.end_ }

/-- A `TextLine` as returned by `document.lineAt`: its number and its full
range (character 0 to the line's text length). -/
structure TextLine where
  lineNumber : Nat
  range : Range
  deriving DecidableEq, Repr

/-- `document.lineAt(position)`. -/
def TextDocument.lineAt (d : TextDocument) (p : Position) : TextLine :=
  { lineNumber := p.line
    range := { start := ⟨p.line, 0⟩, end_ := ⟨p.line, d.lineLength p.line⟩ } }

/-- The whole-document range the provider builds as
`document.validateRange(new Range(0, 1000000, 1000000, 1000000))`. -/
def fullDocumentRange (d : TextDocument) : Range :=
  d.validateRange { start := ⟨0, 1000000⟩, end_ := ⟨1000000, 1000000⟩ }

/-- The `CodeLensLocations` configuration enumeration. -/
inductive CodeLensLocations
  | Document
  | Containers
  | Blocks
  | Custom
  deriving DecidableEq, Repr

/-- The `CodeLensCommand` configuration enumeration. -/
inductive CodeLensCommand
  | BlameAnnotate
  | ShowBlameHistory
  | ShowFileHistory
  | DiffWithPrevious
  | ShowQuickCommitDetails
  | ShowQuickCommitFileDetails
  | ShowQuickFileHistory
  | ShowQuickCurrentBranchHistory
  deriving DecidableEq, Repr

/-- An `ICodeLensLanguageLocation` entry: optional language id, the enabled
locations and the optional custom symbol-name allowlist. -/
structure ICodeLensLanguageLocation where
  language : Option String
  locations : List CodeLensLocations
  customSymbols : Option (List String)
  deriving DecidableEq, Repr

/-- Per-annotation-kind configuration (`codeLens.recentChange` /
`codeLens.authors`): enabled flag and chosen command. -/
structure CodeLensKindConfig where
  enabled : Bool
  command : CodeLensCommand
  deriving DecidableEq, Repr

/-- The `strings.codeLens.unsavedChanges` canned titles. -/
structure UnsavedChangesStrings where
  recentChangeAndAuthors : String
  recentChangeOnly : String
  authorsOnly : String
  deriving DecidableEq, Repr

/-- The slice of `IConfig.codeLens` the provider reads. -/
structure CodeLensConfig where
  recentChange : CodeLensKindConfig
  authors : CodeLensKindConfig
  debug : Bool
  locations : List CodeLensLocations
  customLocationSymbols : List String
  perLanguageLocations : List ICodeLensLanguageLocation
  deriving DecidableEq, Repr

/-- One parsed blame line (`GitCommitLine`): current line number, the line
number in the originating commit, and the commit sha. -/
structure GitCommitLine where
  line : Nat
  originalLine : Nat
  sha : String
  deriving DecidableEq, Repr

/-- A blame commit: the fields of `GitBlameCommit` the provider reads.
`isUncommitted` and `shortSha` are derived properties of the external
`GitCommit` base class, carried here as data. -/
structure GitBlameCommit where
  sha : String
  shortSha : String
  author : String
  lines : List GitCommitLine
  isUncommitted : Bool
  deriving DecidableEq, Repr

/-- An author entry of a blame result. -/
structure GitAuthor where
  name : String
  deriving DecidableEq, Repr

/-- The whole-file blame (`GitBlame`): the provider only inspects `lines`. -/
structure GitBlame where
  lines : List GitCommitLine
  deriving DecidableEq, Repr

/-- A blame-for-range result (`GitBlameLines`): insertion-ordered commit and
author maps (most recent commit first) and all lines of the document. -/
structure GitBlameLines where
  commits : List GitBlameCommit
  authors : List GitAuthor
  allLines : List GitCommitLine
  deriving DecidableEq, Repr

/-- Does the custom allowlist contain this symbol kind's name
(case-insensitively)?  Mirrors
`(languageLocation.customSymbols || []).find(_ => _.toLowerCase() === SymbolKind[symbol.kind].toLowerCase())`. -/
def customSymbolsMatch (languageLocation : ICodeLensLanguageLocation)
    (kind : SymbolKind) : Bool :=
  ((languageLocation.customSymbols.getD []).find?
    (fun s => s.toLower == kind.name.toLower)).isSome

/-- `GitCodeLensProvider._validateSymbolAndGetBlameRange`: decides whether a
symbol is eligible and which blame range its lenses should carry. -/
def _validateSymbolAndGetBlameRange (document : TextDocument)
    (symbol : SymbolInformation)
    (languageLocation : ICodeLensLanguageLocation) : Option Range :=
  let caseResult : Bool × Option Range :=
    match symbol.kind with
    | .File =>
      let valid :=
        if languageLocation.locations.contains CodeLensLocations.Containers then true
        else if languageLocation.locations.contains CodeLensLocations.Custom then
          customSymbolsMatch languageLocation symbol.kind
        else false
      -- Adjust the range to be for the whole file
      (valid, if valid then some (fullDocumentRange document) else none)
    | .Package =>
      let valid :=
        if languageLocation.locations.contains CodeLensLocations.Containers then true
        else if languageLocation.locations.contains CodeLensLocations.Custom then
          customSymbolsMatch languageLocation symbol.kind
        else false
      -- Adjust the range to be for the whole file, but only when the
      -- reported range starts and ends at line 0
      (valid,
        if valid && symbol.range.start.line == 0 && symbol.range.end_.line == 0 then
          some (fullDocumentRange document)
        else none)
    | .Class | .Interface | .Module | .Namespace | .Struct =>
      (languageLocation.locations.contains CodeLensLocations.Containers, none)
    | .Constructor | .Enum | .Function | .Method | .Property =>
      (languageLocation.locations.contains CodeLensLocations.Blocks, none)
    | _ => (false, none)
  let valid := caseResult.1
  let range := caseResult.2
  let valid :=
    if !valid && languageLocation.locations.contains CodeLensLocations.Custom then
      customSymbolsMatch languageLocation symbol.kind
    else valid
  if valid then some (range.getD symbol.range) else none

/-- The two lens classes (`GitRecentChangeCodeLens` / `GitAuthorsCodeLens`)
as a tagged kind. -/
inductive LensKind
  | RecentChange
  | Authors
  deriving DecidableEq, Repr

/-- A produced code lens: which class it is, the constructor arguments the
provider passes (symbol kind, blame range, whole-file flag, anchor range)
and `cellId`, the identity of the shared `Functions.once` memoization cell
its `blame` thunk refers to (the source shares one `blameForRangeFn`
closure between the two lenses of one symbol; cell identity models closure
identity). -/
structure GitCodeLens where
  kind : LensKind
  symbolKind : SymbolKind
  blameRange : Range
  isFullRange : Bool
  range : Range
  cellId : Nat
  deriving DecidableEq, Repr

/-- State threaded through the placement pass: the `lenses` array being
pushed to, and the next fresh memo-cell identity. -/
structure ProvideState where
  lenses : List GitCodeLens
  nextCell : Nat
  deriving DecidableEq, Repr

/-- The dedup test `lenses.length && lenses[lenses.length - 1].range.start.line === line.lineNumber`. -/
def duplicateOfLast (lenses : List GitCodeLens) (lineNumber : Nat) : Bool :=
  match lenses.getLast? with
  | some l => l.range.start.line == lineNumber
  | none => false

/-- The HACK for Omnisharp inside `_provideCodeLens`: which symbol kinds the
csharp special case forces to be treated as multi-line.  `File` and kinds
absent from the switch (for instance `Property` and `Struct`) fall through
and keep the single-line classification. -/
def csharpSymbolTreatedAsMultiline : SymbolKind → Bool
  | .Package | .Module | .Namespace | .Class | .Interface
  | .Constructor | .Method | .Function | .Enum => true
  | _ => false

/-- The authors single-line/multi-line gate of `_provideCodeLens` (lines
197-215): a symbol counts as multi-line when its blame range spans more
than one line, or when the document is csharp and the symbol kind is in
the hack's switch. -/
def authorsMultiline (document : TextDocument) (symbol : SymbolInformation)
    (blameRange : Range) : Bool :=
  let multiline := !blameRange.isSingleLine
  if !multiline && document.languageId == "csharp" then
    csharpSymbolTreatedAsMultiline symbol.kind
  else multiline

/-- `GitCodeLensProvider._provideCodeLens`: the per-symbol step of the
placement pass.  Appends at most one `GitRecentChangeCodeLens` and one
`GitAuthorsCodeLens` for the symbol to the state's lens list. -/
def _provideCodeLens (cfg : CodeLensConfig) (documentIsDirty : Bool)
    (document : TextDocument) (symbol : SymbolInformation)
    (languageLocation : ICodeLensLanguageLocation)
    (st : ProvideState) : ProvideState :=
  match _validateSymbolAndGetBlameRange document symbol languageLocation with
  | none => st
  | some blameRange =>
    let line := document.lineAt symbol.range.start
    -- Make sure there is only 1 lens per line
    if duplicateOfLast st.lenses line.lineNumber then st
    else
      -- Anchor the code lens to the end of the line
      let startChar := line.range.end_.character - 1
      let afterRecent : ProvideState × Option Nat × Nat :=
        if documentIsDirty || cfg.recentChange.enabled then
          let lens : GitCodeLens :=
            { kind := .RecentChange, symbolKind := symbol.kind
              blameRange := blameRange, isFullRange := false
              range := { start := ⟨line.range.start.line, startChar⟩, end_ := line.range.end_ }
              cellId := st.nextCell }
          (⟨st.lenses ++ [lens], st.nextCell + 1⟩, some st.nextCell, startChar + 1)
        else (st, none, startChar)
      let st1 := afterRecent.1
      let blameCell := afterRecent.2.1
      let startChar1 := afterRecent.2.2
      if cfg.authors.enabled then
        if authorsMultiline document symbol blameRange then
          let cellAndState : Nat × ProvideState :=
            match blameCell with
            | some c => (c, st1)
            | none => (st1.nextCell, { st1 with nextCell := st1.nextCell + 1 })
          let cell := cellAndState.1
          let st2 := cellAndState.2
          if !documentIsDirty then
            { st2 with lenses := st2.lenses ++
                [{ kind := .Authors, symbolKind := symbol.kind
                   blameRange := blameRange, isFullRange := false
                   range := { start := ⟨line.range.start.line, startChar1⟩, end_ := line.range.end_ }
                   cellId := cell }] }
          else st2
        else st1
      else st1

/-- The guard of the whole-document tail of `provideCodeLenses`: the
policy lists `Document`, or lists `Custom` with a "file" allowlist entry. -/
def wantsWholeFileLens (languageLocation : ICodeLensLanguageLocation) : Bool :=
  languageLocation.locations.contains CodeLensLocations.Document ||
    (languageLocation.locations.contains CodeLensLocations.Custom &&
      ((languageLocation.customSymbols.getD []).find? (fun s => s.toLower == "file")).isSome)

/-- The line-0 occupancy check of the whole-document tail:
`lenses.find(l => l.range.start.line === 0 && l.range.end.line === 0)`. -/
def hasLineZeroLens (lenses : List GitCodeLens) : Bool :=
  (lenses.find? (fun l => l.range.start.line == 0 && l.range.end_.line == 0)).isSome

/-- The whole-document tail of `provideCodeLenses` (lines 91-110 of the
source): if the policy asks for a document placement and no lens already
anchors at line 0, synthesize whole-file lenses. -/
def wholeFileStep (cfg : CodeLensConfig) (documentIsDirty : Bool)
    (document : TextDocument) (languageLocation : ICodeLensLanguageLocation)
    (st : ProvideState) : ProvideState :=
  if wantsWholeFileLens languageLocation then
    -- Check if we have a lens for the whole document -- if not add one
    if hasLineZeroLens st.lenses then st
    else
      let blameRange := fullDocumentRange document
      let afterRecent : ProvideState × Option Nat :=
        if documentIsDirty || cfg.recentChange.enabled then
          let lens : GitCodeLens :=
            { kind := .RecentChange, symbolKind := .File
              blameRange := blameRange, isFullRange := true
              range := { start := ⟨0, 0⟩, end_ := ⟨0, blameRange.start.character⟩ }
              cellId := st.nextCell }
          (⟨st.lenses ++ [lens], st.nextCell + 1⟩, some st.nextCell)
        else (st, none)
      let st1 := afterRecent.1
      let blameCell := afterRecent.2
      if cfg.authors.enabled then
        let cellAndState : Nat × ProvideState :=
          match blameCell with
          | some c => (c, st1)
          | none => (st1.nextCell, { st1 with nextCell := st1.nextCell + 1 })
        let cell := cellAndState.1
        let st2 := cellAndState.2
        if !documentIsDirty then
          { st2 with lenses := st2.lenses ++
              [{ kind := .Authors, symbolKind := .File
                 blameRange := blameRange, isFullRange := true
                 range := { start := ⟨0, 1⟩, end_ := ⟨0, blameRange.start.character⟩ }
                 cellId := cell }] }
        else st2
      else st1
  else st

/-- Normal form of the lens group `_provideCodeLens` appends for a symbol
that passed the eligibility and dedup checks: at most one recent-change
lens followed by at most one authors lens, both anchored at the symbol's
start line and sharing the memo cell allocated first. -/
def emitGroup (cfg : CodeLensConfig) (documentIsDirty : Bool)
    (document : TextDocument) (symbol : SymbolInformation)
    (blameRange : Range) (startCell : Nat) : List GitCodeLens :=
  let L := symbol.range.start.line
  let len := document.lineLength L
  let rc : List GitCodeLens :=
    if documentIsDirty || cfg.recentChange.enabled then
      [{ kind := LensKind.RecentChange, symbolKind := symbol.kind
         blameRange := blameRange, isFullRange := false
         range := ⟨⟨L, len - 1⟩, ⟨L, len⟩⟩, cellId := startCell }]
    else []
  let auth : List GitCodeLens :=
    if cfg.authors.enabled && authorsMultiline document symbol blameRange &&
       !documentIsDirty then
      [{ kind := LensKind.Authors, symbolKind := symbol.kind
         blameRange := blameRange, isFullRange := false
         range := ⟨⟨L, if documentIsDirty || cfg.recentChange.enabled then
                         len - 1 + 1 else len - 1⟩,
                   ⟨L, len⟩⟩
         cellId := startCell }]
    else []
  rc ++ auth

/-- Normal form of the lens group `wholeFileStep` appends when the
whole-document placement is requested and line 0 is still free. -/
def wholeFileGroup (cfg : CodeLensConfig) (documentIsDirty : Bool)
    (document : TextDocument) (startCell : Nat) : List GitCodeLens :=
  let blameRange := fullDocumentRange document
  let rc : List GitCodeLens :=
    if documentIsDirty || cfg.recentChange.enabled then
      [{ kind := LensKind.RecentChange, symbolKind := SymbolKind.File
         blameRange := blameRange, isFullRange := true
         range := ⟨⟨0, 0⟩, ⟨0, blameRange.start.character⟩⟩, cellId := startCell }]
    else []
  let auth : List GitCodeLens :=
    if cfg.authors.enabled && !documentIsDirty then
      [{ kind := LensKind.Authors, symbolKind := SymbolKind.File
         blameRange := blameRange, isFullRange := true
         range := ⟨⟨0, 1⟩, ⟨0, blameRange.start.character⟩⟩, cellId := startCell }]
    else []
  rc ++ auth

/-- The `perLanguageLocations` lookup at the top of `provideCodeLenses`,
with the fallback entry built from the global configuration. -/
def resolveLanguageLocations (cfg : CodeLensConfig) (document : TextDocument) :
    ICodeLensLanguageLocation :=
  match cfg.perLanguageLocations.find?
      (fun l => match l.language with
        | some s => s.toLower == document.languageId
        | none => false) with
  | some l => l
  | none =>
    { language := none, locations := cfg.locations
      customSymbols := some cfg.customLocationSymbols }

/-- `GitCodeLensProvider.provideCodeLenses`: the full placement pass.
`blame` is the result of the asynchronous `getBlameForFile` fetch
(`none` models `undefined`); `symbols` is the flattened symbol list the
document-symbol command would return (it is consulted only on the branch
that fetches it). -/
def provideCodeLenses (cfg : CodeLensConfig) (document : TextDocument)
    (blame : Option GitBlame) (symbols : List SymbolInformation) :
    List GitCodeLens :=
  let documentIsDirty := document.isDirty
  let languageLocations := resolveLanguageLocations cfg document
  let emptyState : ProvideState := { lenses := [], nextCell := 0 }
  if languageLocations.locations.length == 1 &&
     languageLocations.locations.contains CodeLensLocations.Document then
    match blame with
    | none => []
    | some b =>
      if b.lines.length == 0 then []
      else (wholeFileStep cfg documentIsDirty document languageLocations emptyState).lenses
  else
    match blame with
    | none => []
    | some b =>
      if b.lines.length == 0 then []
      else
        let st := symbols.foldl
          (fun st sym => _provideCodeLens cfg documentIsDirty document sym languageLocations st)
          emptyState
        (wholeFileStep cfg documentIsDirty document languageLocations st).lenses

/-- A once-memoizing cell: the wrapped computation (instrumented with an
execution counter so "runs at most once" is observable) plus the cached
result. -/
structure OnceThunk (α : Type) where
  compute : Nat → α × Nat
  cached : Option α

namespace Functions

/-- Modelled from the spec: `Functions.once` of the system module (the
module itself is not among the provided sources).  Per the design, the
deferred blame-for-range computation is "computed at most once per distinct
PlacementDescriptor, memoized thereafter", via "an explicit memoization
cell (option/nullable holding the computed aggregate plus a computed
flag)".  Wrapping a function produces a cell with an empty cache. -/
def once {α : Type} (f : Nat → α × Nat) : OnceThunk α :=
  { compute := f, cached := none }

end Functions

/-- Invoke the memoized thunk once: a cached value is returned as-is, an
empty cache runs the computation (advancing the execution counter `k`) and
stores the result. -/
def OnceThunk.call {α : Type} (c : OnceThunk α) (k : Nat) : α × OnceThunk α × Nat :=
  match c.cached with
  | some v => (v, c, k)
  | none =>
    let r := c.compute k
    (r.1, { c with cached := some r.1 }, r.2)

/-- Invoke the memoized thunk `n` times in sequence, collecting every
returned value. -/
def OnceThunk.calls {α : Type} (c : OnceThunk α) (k : Nat) :
    Nat → List α × OnceThunk α × Nat
  | 0 => ([], c, k)
  | n + 1 =>
    let r := c.call k
    let rest := r.2.1.calls r.2.2 n
    (r.1 :: rest.1, rest.2.1, rest.2.2)

/-- A pure computation instrumented to bump the execution counter each time
its body actually runs. -/
def countingThunk {α : Type} (f : Unit → α) : Nat → α × Nat :=
  fun k => (f (), k + 1)

/-- Identifiers attachable to a VS Code `Command.command` field by the
provider: the empty (disabled) string, a `CodeLensCommand` configuration
value, or a member of the extension's `Commands` enumeration. -/
inductive CommandId
  | empty
  | codeLens (c : CodeLensCommand)
  | toggleFileBlame
  | showBlameHistory
  | showFileHistory
  | diffWithPrevious
  deriving DecidableEq, Repr

/-- The pure data content of the argument objects the provider attaches to
a command (host `Uri`s are identified by the lens they come from and are
not repeated here). -/
structure LensCommandArgs where
  line : Option Nat := none
  position : Option Position := none
  range : Option Range := none
  sha : Option String := none
  commit : Option GitBlameCommit := none
  deriving DecidableEq, Repr

/-- A VS Code `Command` as the provider builds it: title, optional command
identifier (absent on the dirty-document title-only command) and optional
argument payload. -/
structure Command where
  title : String
  command : Option CommandId := none
  arguments : Option LensCommandArgs := none
  deriving DecidableEq, Repr

/-- The original-line adjustment shared by the history commands: if the
resolved commit recorded a blame line for the lens's anchor line, target
that line's `originalLine` instead. -/
def adjustedLine (lens : GitCodeLens) (commit : Option GitBlameCommit) : Nat :=
  let line := lens.range.start.line
  match commit with
  | some c =>
    match c.lines.find? (fun bl => bl.line == line) with
    | some blameLine => blameLine.originalLine
    | none => line
  | none => line

/-- `_applyBlameAnnotateCommand`. -/
def _applyBlameAnnotateCommand (title : String) (lens : GitCodeLens)
    (blame : GitBlameLines) : Command :=
  { title := title, command := some .toggleFileBlame, arguments := some {} }

/-- `_applyShowBlameHistoryCommand`. -/
def _applyShowBlameHistoryCommand (title : String) (lens : GitCodeLens)
    (blame : GitBlameLines) (commit : Option GitBlameCommit := none) : Command :=
  { title := title
    command := some .showBlameHistory
    arguments := some
      { line := some (adjustedLine lens commit)
        position := some (if lens.isFullRange then ⟨1, 0⟩ else lens.range.start)
        range := some lens.blameRange
        sha := commit.map (fun c => c.sha) } }

/-- `_applyShowFileHistoryCommand`. -/
def _applyShowFileHistoryCommand (title : String) (lens : GitCodeLens)
    (blame : GitBlameLines) (commit : Option GitBlameCommit := none) : Command :=
  { title := title
    command := some .showFileHistory
    arguments := some
      { line := some (adjustedLine lens commit)
        position := some (if lens.isFullRange then ⟨1, 0⟩ else lens.range.start)
        sha := commit.map (fun c => c.sha) } }

/-- `_applyDiffWithPreviousCommand`; when no commit was pre-attached it is
looked up from the blame of the lens's first anchor line. -/
def _applyDiffWithPreviousCommand (title : String) (lens : GitCodeLens)
    (blame : GitBlameLines) (commit : Option GitBlameCommit := none) : Command :=
  let commit :=
    match commit with
    | some c => some c
    | none =>
      (blame.allLines.get? lens.range.start.line).bind
        (fun blameLine => blame.commits.find? (fun c => c.sha == blameLine.sha))
  { title := title
    command := some .diffWithPrevious
    arguments := some
      { commit := commit
        range := if lens.isFullRange then none else some lens.blameRange } }

/-- `_applyShowQuickCommitDetailsCommand`: an uncommitted commit gets the
empty (disabled) command identifier. -/
def _applyShowQuickCommitDetailsCommand (title : String) (lens : GitCodeLens)
    (blame : GitBlameLines) (commit : Option GitBlameCommit := none) : Command :=
  { title := title
    command := some
      (match commit with
        | some c => if c.isUncommitted then .empty else .codeLens .ShowQuickCommitDetails
        | none => .codeLens .ShowQuickCommitDetails)
    arguments := some
      { commit := commit, sha := commit.map (fun c => c.sha) } }

/-- `_applyShowQuickCommitFileDetailsCommand`: an uncommitted commit gets
the empty (disabled) command identifier. -/
def _applyShowQuickCommitFileDetailsCommand (title : String) (lens : GitCodeLens)
    (blame : GitBlameLines) (commit : Option GitBlameCommit := none) : Command :=
  { title := title
    command := some
      (match commit with
        | some c => if c.isUncommitted then .empty else .codeLens .ShowQuickCommitFileDetails
        | none => .codeLens .ShowQuickCommitFileDetails)
    arguments := some
      { commit := commit, sha := commit.map (fun c => c.sha) } }

/-- `_applyShowQuickFileHistoryCommand`. -/
def _applyShowQuickFileHistoryCommand (title : String) (lens : GitCodeLens)
    (blame : GitBlameLines) (commit : Option GitBlameCommit := none) : Command :=
  { title := title
    command := some (.codeLens .ShowQuickFileHistory)
    arguments := some
      { range := if lens.isFullRange then none else some lens.blameRange } }

/-- `_applyShowQuickBranchHistoryCommand`. -/
def _applyShowQuickBranchHistoryCommand (title : String) (lens : GitCodeLens)
    (blame : GitBlameLines) (commit : Option GitBlameCommit := none) : Command :=
  { title := title
    command := some (.codeLens .ShowQuickCurrentBranchHistory)
    arguments := some {} }

/-- The command dispatch switch at the bottom of
`_resolveGitRecentChangeCodeLens`. -/
def dispatchRecentChangeCommand (chosen : CodeLensCommand) (title : String)
    (lens : GitCodeLens) (blame : GitBlameLines)
    (recentCommit : GitBlameCommit) : Command :=
  match chosen with
  | .BlameAnnotate => _applyBlameAnnotateCommand title lens blame
  | .ShowBlameHistory => _applyShowBlameHistoryCommand title lens blame (some recentCommit)
  | .ShowFileHistory => _applyShowFileHistoryCommand title lens blame (some recentCommit)
  | .DiffWithPrevious => _applyDiffWithPreviousCommand title lens blame (some recentCommit)
  | .ShowQuickCommitDetails => _applyShowQuickCommitDetailsCommand title lens blame (some recentCommit)
  | .ShowQuickCommitFileDetails => _applyShowQuickCommitFileDetailsCommand title lens blame (some recentCommit)
  | .ShowQuickFileHistory => _applyShowQuickFileHistoryCommand title lens blame (some recentCommit)
  | .ShowQuickCurrentBranchHistory => _applyShowQuickBranchHistoryCommand title lens blame (some recentCommit)

/-- The debug suffix appended to a recent-change title when
`codeLens.debug` is on. -/
def recentChangeDebugSuffix (lens : GitCodeLens) (recentCommit : GitBlameCommit) : String :=
  " [" ++ lens.symbolKind.name ++ "(" ++ toString lens.range.start.character ++
  "-" ++ toString lens.range.end_.character ++ "), Lines (" ++
  toString (lens.blameRange.start.line + 1) ++ "-" ++
  toString (lens.blameRange.end_.line + 1) ++ "), Commit (" ++
  recentCommit.shortSha ++ ")]"

/-- `GitCodeLensProvider._resolveGitRecentChangeCodeLens`, returning the
command the resolver assigns to the lens (`none` when the source returns
the lens without assigning one).  `fromNow` stands for the external
relative-date formatter on commits. -/
def _resolveGitRecentChangeCodeLens (cfg : CodeLensConfig)
    (strings : UnsavedChangesStrings) (documentIsDirty : Bool)
    (fromNow : GitBlameCommit → String) (lens : GitCodeLens)
    (blame : Option GitBlameLines) : Option Command :=
  -- Blame information is not valid when there are unsaved changes
  if documentIsDirty then
    let title :=
      if cfg.recentChange.enabled && cfg.authors.enabled then
        strings.recentChangeAndAuthors
      else if cfg.recentChange.enabled then strings.recentChangeOnly
      else strings.authorsOnly
    some { title := title }
  else
    match blame with
    | none => none
    | some bl =>
      match bl.commits.head? with
      | none => none
      | some recentCommit =>
        let title := recentCommit.author ++ ", " ++ fromNow recentCommit
        let title :=
          if cfg.debug then title ++ recentChangeDebugSuffix lens recentCommit
          else title
        some (dispatchRecentChangeCommand cfg.recentChange.command title lens bl recentCommit)

/-- The data `GitService.fromGitContentUri` decodes out of a gitlens-git
URI. -/
structure GitContentData where
  repoPath : String
  fileName : String
  originalFileName : Option String
  sha : String
  decoration : Option String
  deriving DecidableEq, Repr

/-- The observable outcome of one `provideTextDocumentContent` call: the
returned content (`none` models `undefined`), the error messages shown to
the user, the errors passed to the logger, how many times the versioned
file text was fetched, and whether an exception escaped the method. -/
structure ContentOutcome where
  result : Option String
  shownErrorMessages : List String
  loggedErrors : List String
  fetchCalls : Nat
  rethrown : Option String
  deriving DecidableEq, Repr

/-- `GitContentProvider.provideTextDocumentContent`.  `fakeSha` is the
external `GitService.fakeSha` marker, `shortenSha` the external sha
shortener, `relative` the external path-relativize helper, and `fetch` the
outcome the external `getVersionedFileText` call would have (its thrown
exception carried as `Except.error`). -/
def provideTextDocumentContent (fakeSha : String) (shortenSha : String → String)
    (relative : String → String → String) (data : GitContentData)
    (fetch : Except String String) : ContentOutcome :=
  let fileName := data.originalFileName.getD data.fileName
  if data.sha != fakeSha then
    match fetch with
    | .ok fetched =>
      let text :=
        match data.decoration with
        | some d => d ++ "\n" ++ fetched
        | none => fetched
      { result := some text, shownErrorMessages := [], loggedErrors := []
        fetchCalls := 1, rethrown := none }
    | .error ex =>
      { result := none
        shownErrorMessages :=
          ["Unable to show Git revision " ++ shortenSha data.sha ++ " of \x27" ++
            relative data.repoPath fileName ++ "\x27"]
        loggedErrors := [ex], fetchCalls := 1, rethrown := none }
  else
    let text :=
      match data.decoration with
      | some d => d ++ "\n" ++ ""
      | none => ""
    { result := some text, shownErrorMessages := [], loggedErrors := []
      fetchCalls := 0, rethrown := none }

/-- The line a lens is anchored at. -/
def lensLine (l : GitCodeLens) : Nat := l.range.start.line

/-- `l` clashes with no lens of `ls`: no member shares both its kind and
its anchor start line. -/
def noSameKindLine (l : GitCodeLens) (ls : List GitCodeLens) : Bool :=
  ls.all (fun m => !(l.kind == m.kind && lensLine l == lensLine m))

/-- The dedup invariant on a lens sequence: no two lenses of the same kind
anchor at the same starting line. -/
def dedupOk : List GitCodeLens → Bool
  | [] => true
  | l :: ls => noSameKindLine l ls && dedupOk ls

/-- A plain-text test document of twelve six-character lines. -/
def docPlain : TextDocument :=
  { languageId := "plaintext", isDirty := false
    lines := List.replicate 12 "abcdef" }

/-- A one-line blame map, enough to pass the empty-blame short-circuit. -/
def blameOneLine : GitBlame := { lines := [{ line := 0, originalLine := 0, sha := "c1" }] }

/-- A language-location policy enabling only block symbols. -/
def llBlocks : ICodeLensLanguageLocation :=
  { language := none, locations := [CodeLensLocations.Blocks], customSymbols := none }

/-- A configuration with recent-change lenses on, authors lenses off, and
block locations. -/
def cfgBlocksRecentOnly : CodeLensConfig :=
  { recentChange := { enabled := true, command := CodeLensCommand.ShowQuickCommitDetails }
    authors := { enabled := false, command := CodeLensCommand.ShowQuickCommitDetails }
    debug := false, locations := [CodeLensLocations.Blocks]
    customLocationSymbols := [], perLanguageLocations := [] }

/-- A function symbol spanning the given lines. -/
def funcSym (startLine endLine : Nat) : SymbolInformation :=
  { kind := SymbolKind.Function, range := ⟨⟨startLine, 0⟩, ⟨endLine, 0⟩⟩ }

/-- A symbol list that is not in document order: two function symbols start
at line 5 but a line-10 symbol sits between them. -/
def symbolsOutOfOrder : List SymbolInformation :=
  [funcSym 5 6, funcSym 10 11, funcSym 5 6]

/-- A language-location policy enabling only container symbols. -/
def llContainers : ICodeLensLanguageLocation :=
  { language := none, locations := [CodeLensLocations.Containers], customSymbols := none }

/-- A package symbol whose reported range spans lines 2 through 4. -/
def packageSymMid : SymbolInformation :=
  { kind := SymbolKind.Package, range := ⟨⟨2, 0⟩, ⟨4, 3⟩⟩ }

/-- A csharp document (the language the single-line hack keys on). -/
def docCSharp : TextDocument :=
  { languageId := "csharp", isDirty := false
    lines := List.replicate 12 "abcdef" }

/-- A configuration with authors lenses on, recent-change lenses off, and
block locations. -/
def cfgBlocksAuthorsOnly : CodeLensConfig :=
  { recentChange := { enabled := false, command := CodeLensCommand.ShowQuickCommitDetails }
    authors := { enabled := true, command := CodeLensCommand.ShowQuickCommitDetails }
    debug := false, locations := [CodeLensLocations.Blocks]
    customLocationSymbols := [], perLanguageLocations := [] }

/-- A single-line property symbol at line 3: a callable-like kind the
csharp hack's switch omits. -/
def propertySymSingleLine : SymbolInformation :=
  { kind := SymbolKind.Property, range := ⟨⟨3, 0⟩, ⟨3, 4⟩⟩ }

/-- A single-line method symbol at line 3: a kind the csharp hack covers. -/
def methodSymSingleLine : SymbolInformation :=
  { kind := SymbolKind.Method, range := ⟨⟨3, 0⟩, ⟨3, 4⟩⟩ }

/-- A language-location policy enabling block symbols and the
whole-document placement. -/
def llBlocksAndDocument : ICodeLensLanguageLocation :=
  { language := none
    locations := [CodeLensLocations.Blocks, CodeLensLocations.Document]
    customSymbols := none }

/-- A configuration enabling both annotation kinds over block locations. -/
def cfgBlocksBoth : CodeLensConfig :=
  { recentChange := { enabled := true, command := CodeLensCommand.ShowQuickCommitDetails }
    authors := { enabled := true, command := CodeLensCommand.ShowQuickCommitDetails }
    debug := false, locations := [CodeLensLocations.Blocks]
    customLocationSymbols := [], perLanguageLocations := [] }

/-- The plain test document with unsaved edits. -/
def docPlainDirty : TextDocument := { docPlain with isDirty := true }

/-- A document-ordered symbol list (start lines 2, 5, 5, 10: nondecreasing,
with a same-line pair that exercises the dedup drop). -/
def symbolsInOrder : List SymbolInformation :=
  [funcSym 2 3, funcSym 5 6, funcSym 5 8, funcSym 10 11]

/-- A commit flagged as the uncommitted marker. -/
def uncommittedCommit : GitBlameCommit :=
  { sha := "0000000000000000000000000000000000000000", shortSha := "00000000"
    author := "You", lines := [], isUncommitted := true }

/-- An ordinary committed commit. -/
def committedCommit : GitBlameCommit :=
  { sha := "5f2f1d1a", shortSha := "5f2f1d1a", author := "Alice"
    lines := [{ line := 0, originalLine := 0, sha := "5f2f1d1a" }]
    isUncommitted := false }

/-- A sample produced lens for resolve-step instantiations. -/
def sampleLens : GitCodeLens :=
  { kind := LensKind.RecentChange, symbolKind := SymbolKind.Function
    blameRange := ⟨⟨5, 0⟩, ⟨6, 0⟩⟩, isFullRange := false
    range := ⟨⟨5, 5⟩, ⟨5, 6⟩⟩, cellId := 0 }

/-- A sample blame-for-range result. -/
def sampleBlameLines : GitBlameLines :=
  { commits := [committedCommit], authors := [{ name := "Alice" }]
    allLines := [{ line := 0, originalLine := 0, sha := "5f2f1d1a" }] }

/-- Sample unsaved-changes strings. -/
def sampleStrings : UnsavedChangesStrings :=
  { recentChangeAndAuthors := "Unsaved changes (cannot determine recent change or authors)"
    recentChangeOnly := "Unsaved changes (cannot determine recent change)"
    authorsOnly := "Unsaved changes (cannot determine authors)" }

/-- Sample decoded git-content URI data pointing at a real revision. -/
def sampleContentData : GitContentData :=
  { repoPath := "/repo", fileName := "/repo/a/b.ts", originalFileName := none
    sha := "5f2f1d1a", decoration := none }

/-- The invariant maintained along the per-symbol pass, relative to an
upper bound `B` on the start lines of the symbols processed so far: the
lens list satisfies the dedup invariant, is sorted by anchor line, anchors
at or before `B`, and every anchor range sits on a single line. -/
def PassInv (lenses : List GitCodeLens) (B : Nat) : Prop :=
  dedupOk lenses = true ∧
  List.Pairwise (fun a b => lensLine a ≤ lensLine b) lenses ∧
  (∀ l ∈ lenses, lensLine l ≤ B) ∧
  (∀ l ∈ lenses, l.range.start.line = l.range.end_.line)

/-- The per-symbol step leaves the state untouched when the symbol is
ineligible or the dedup check fires. -/
theorem provideCodeLens_skip (cfg : CodeLensConfig) (documentIsDirty : Bool)
    (document : TextDocument) (symbol : SymbolInformation)
    (ll : ICodeLensLanguageLocation) (st : ProvideState)
    (h : _validateSymbolAndGetBlameRange document symbol ll = none ∨
      duplicateOfLast st.lenses symbol.range.start.line = true) :
    _provideCodeLens cfg documentIsDirty document symbol ll st = st := by
  rcases h with h | h
  · simp [_provideCodeLens, h]
  · cases hval : _validateSymbolAndGetBlameRange document symbol ll with
    | none => simp [_provideCodeLens, hval]
    | some br => simp [_provideCodeLens, hval, TextDocument.lineAt, h]

/-- When a symbol passes the eligibility and dedup checks, the per-symbol
step appends exactly its emit group, anchored at the symbol's start line. -/
theorem provideCodeLens_eq_append_emitGroup (cfg : CodeLensConfig)
    (documentIsDirty : Bool) (document : TextDocument) (symbol : SymbolInformation)
    (ll : ICodeLensLanguageLocation) (st : ProvideState) (br : Range)
    (hval : _validateSymbolAndGetBlameRange document symbol ll = some br)
    (hdup : duplicateOfLast st.lenses symbol.range.start.line = false) :
    (_provideCodeLens cfg documentIsDirty document symbol ll st).lenses =
      st.lenses ++ emitGroup cfg documentIsDirty document symbol br st.nextCell := by
  simp only [_provideCodeLens, hval]
  by_cases hd : documentIsDirty = true <;>
    by_cases hrc : cfg.recentChange.enabled = true <;>
    by_cases ha : cfg.authors.enabled = true <;>
    by_cases hml : authorsMultiline document symbol br = true <;>
    simp_all [emitGroup, TextDocument.lineAt]

/-- When the whole-document placement is requested and no lens sits at
line 0, the whole-file step appends exactly its group. -/
theorem wholeFileStep_eq_append_group (cfg : CodeLensConfig)
    (documentIsDirty : Bool) (document : TextDocument)
    (ll : ICodeLensLanguageLocation) (st : ProvideState)
    (hreq : wantsWholeFileLens ll = true)
    (hfree : hasLineZeroLens st.lenses = false) :
    (wholeFileStep cfg documentIsDirty document ll st).lenses =
      st.lenses ++ wholeFileGroup cfg documentIsDirty document st.nextCell := by
  unfold wholeFileStep
  rw [hreq, hfree]
  by_cases hd : documentIsDirty = true <;>
    by_cases hrc : cfg.recentChange.enabled = true <;>
    by_cases ha : cfg.authors.enabled = true <;>
    simp_all [wholeFileGroup]

/-- The whole-file step leaves the state untouched when the placement is
not requested or a lens already anchors at line 0. -/
theorem wholeFileStep_skip (cfg : CodeLensConfig) (documentIsDirty : Bool)
    (document : TextDocument) (ll : ICodeLensLanguageLocation) (st : ProvideState)
    (h : wantsWholeFileLens ll = false ∨ hasLineZeroLens st.lenses = true) :
    wholeFileStep cfg documentIsDirty document ll st = st := by
  rcases h with h | h
  · unfold wholeFileStep
    rw [h]
    simp
  · by_cases hreq : wantsWholeFileLens ll = true
    · unfold wholeFileStep
      rw [hreq, h]
      simp
    · unfold wholeFileStep
      rw [Bool.not_eq_true] at hreq
      rw [hreq]
      simp

/-- C6: whenever the fetched blame map is undefined or contains zero lines,
`provideCodeLenses` returns the empty lens sequence, independently of the
symbol list (so before any symbol is classified or any lens is created). -/
theorem C6_empty_blame_short_circuits (cfg : CodeLensConfig) (document : TextDocument)
    (blame : Option GitBlame) (symbols : List SymbolInformation)
    (h : blame = none ∨ ∃ b, blame = some b ∧ b.lines = []) :
    provideCodeLenses cfg document blame symbols = [] := by
  rcases h with h | ⟨b, hb, hlines⟩ <;> subst_vars
  · simp [provideCodeLenses]
  · simp [provideCodeLenses, hlines]

/-- Witness for C6 at a concrete input: an absent blame map yields no
lenses even with eligible symbols present. -/
theorem C6_empty_blame_short_circuits_witness :
    provideCodeLenses cfgBlocksRecentOnly docPlain none symbolsInOrder = [] :=
  C6_empty_blame_short_circuits cfgBlocksRecentOnly docPlain none symbolsInOrder (Or.inl rfl)

/-- C7: resolving a recent-change lens on a dirty document picks one of the
three canned unsaved-changes titles according to which annotation kinds are
enabled, and attaches a command carrying only that title: no command
identifier and no arguments. -/
theorem C7_dirty_resolution_canned_titles (cfg : CodeLensConfig)
    (strings : UnsavedChangesStrings) (fromNow : GitBlameCommit → String)
    (lens : GitCodeLens) (blame : Option GitBlameLines) :
    (cfg.recentChange.enabled = true → cfg.authors.enabled = true →
      _resolveGitRecentChangeCodeLens cfg strings true fromNow lens blame =
        some { title := strings.recentChangeAndAuthors, command := none, arguments := none }) ∧
    (cfg.recentChange.enabled = true → cfg.authors.enabled = false →
      _resolveGitRecentChangeCodeLens cfg strings true fromNow lens blame =
        some { title := strings.recentChangeOnly, command := none, arguments := none }) ∧
    (cfg.recentChange.enabled = false →
      _resolveGitRecentChangeCodeLens cfg strings true fromNow lens blame =
        some { title := strings.authorsOnly, command := none, arguments := none }) := by
  refine ⟨fun h1 h2 => ?_, fun h1 h2 => ?_, fun h1 => ?_⟩
  · simp [_resolveGitRecentChangeCodeLens, h1, h2]
  · simp [_resolveGitRecentChangeCodeLens, h1, h2]
  · simp [_resolveGitRecentChangeCodeLens, h1]

/-- Witness for C7: with both kinds enabled, the combined unsaved-changes
title and a disabled action come back. -/
theorem C7_dirty_resolution_canned_titles_witness :
    _resolveGitRecentChangeCodeLens cfgBlocksBoth sampleStrings true
        (fun _ => "just now") sampleLens (some sampleBlameLines) =
      some { title := sampleStrings.recentChangeAndAuthors, command := none, arguments := none } :=
  (C7_dirty_resolution_canned_titles cfgBlocksBoth sampleStrings
    (fun _ => "just now") sampleLens (some sampleBlameLines)).1 rfl rfl

/-- C8: a commit flagged uncommitted turns the quick-commit-details and
quick-commit-file-details command identifiers into the empty (disabled)
identifier, while every other action keeps its normal identifier no matter
the flag. -/
theorem C8_uncommitted_disables_quick_details (title : String) (lens : GitCodeLens)
    (blame : GitBlameLines) (commit : GitBlameCommit)
    (h : commit.isUncommitted = true) :
    (_applyShowQuickCommitDetailsCommand title lens blame (some commit)).command =
      some CommandId.empty ∧
    (_applyShowQuickCommitFileDetailsCommand title lens blame (some commit)).command =
      some CommandId.empty ∧
    (∀ c : Option GitBlameCommit,
      (_applyBlameAnnotateCommand title lens blame).command = some CommandId.toggleFileBlame ∧
      (_applyShowBlameHistoryCommand title lens blame c).command = some CommandId.showBlameHistory ∧
      (_applyShowFileHistoryCommand title lens blame c).command = some CommandId.showFileHistory ∧
      (_applyDiffWithPreviousCommand title lens blame c).command = some CommandId.diffWithPrevious ∧
      (_applyShowQuickFileHistoryCommand title lens blame c).command =
        some (CommandId.codeLens CodeLensCommand.ShowQuickFileHistory) ∧
      (_applyShowQuickBranchHistoryCommand title lens blame c).command =
        some (CommandId.codeLens CodeLensCommand.ShowQuickCurrentBranchHistory)) := by
  refine ⟨?_, ?_, fun c => ⟨rfl, rfl, rfl, rfl, rfl, rfl⟩⟩ <;>
    simp [_applyShowQuickCommitDetailsCommand, _applyShowQuickCommitFileDetailsCommand, h]

/-- Witness for C8 at the concrete uncommitted marker commit. -/
theorem C8_uncommitted_disables_quick_details_witness :
    (_applyShowQuickCommitDetailsCommand "t" sampleLens sampleBlameLines
        (some uncommittedCommit)).command = some CommandId.empty ∧
    (_applyShowQuickCommitFileDetailsCommand "t" sampleLens sampleBlameLines
        (some uncommittedCommit)).command = some CommandId.empty ∧
    (∀ c : Option GitBlameCommit,
      (_applyBlameAnnotateCommand "t" sampleLens sampleBlameLines).command =
        some CommandId.toggleFileBlame ∧
      (_applyShowBlameHistoryCommand "t" sampleLens sampleBlameLines c).command =
        some CommandId.showBlameHistory ∧
      (_applyShowFileHistoryCommand "t" sampleLens sampleBlameLines c).command =
        some CommandId.showFileHistory ∧
      (_applyDiffWithPreviousCommand "t" sampleLens sampleBlameLines c).command =
        some CommandId.diffWithPrevious ∧
      (_applyShowQuickFileHistoryCommand "t" sampleLens sampleBlameLines c).command =
        some (CommandId.codeLens CodeLensCommand.ShowQuickFileHistory) ∧
      (_applyShowQuickBranchHistoryCommand "t" sampleLens sampleBlameLines c).command =
        some (CommandId.codeLens CodeLensCommand.ShowQuickCurrentBranchHistory)) :=
  C8_uncommitted_disables_quick_details "t" sampleLens sampleBlameLines uncommittedCommit rfl

/-- C9: when the historical-content fetch fails, the provider returns
`undefined` content, logs the exception once, shows exactly one error
message naming the shortened revision id and the repo-relative file path,
does not rethrow, and does not retry (the fetch ran exactly once). -/
theorem C9_content_fetch_failure_degrades (fakeSha : String)
    (shortenSha : String → String) (relative : String → String → String)
    (data : GitContentData) (ex : String) (hsha : data.sha ≠ fakeSha) :
    provideTextDocumentContent fakeSha shortenSha relative data (Except.error ex) =
      { result := none
        shownErrorMessages :=
          ["Unable to show Git revision " ++ shortenSha data.sha ++ " of \x27" ++
            relative data.repoPath (data.originalFileName.getD data.fileName) ++ "\x27"]
        loggedErrors := [ex]
        fetchCalls := 1
        rethrown := none } := by
  simp [provideTextDocumentContent, hsha]

/-- Witness for C9 at a concrete failing fetch. -/
theorem C9_content_fetch_failure_degrades_witness :
    provideTextDocumentContent "fake" (fun s => s.take 8) (fun _ f => f)
        sampleContentData (Except.error "boom") =
      { result := none
        shownErrorMessages := ["Unable to show Git revision " ++ "5f2f1d1a".take 8 ++
          " of \x27" ++ sampleContentData.fileName ++ "\x27"]
        loggedErrors := ["boom"]
        fetchCalls := 1
        rethrown := none } :=
  C9_content_fetch_failure_degrades "fake" (fun s => s.take 8) (fun _ f => f)
    sampleContentData "boom" (by decide)

/-- A no-clash check distributes over an append of candidate lists. -/
theorem noSameKindLine_append (l : GitCodeLens) (xs ys : List GitCodeLens) :
    noSameKindLine l (xs ++ ys) = (noSameKindLine l xs && noSameKindLine l ys) := by
  simp [noSameKindLine, List.all_append]

/-- The dedup invariant survives an append when each side satisfies it and
no lens of the prefix clashes with the suffix. -/
theorem dedupOk_append (xs ys : List GitCodeLens)
    (hx : dedupOk xs = true) (hy : dedupOk ys = true)
    (hcross : ∀ x ∈ xs, noSameKindLine x ys = true) :
    dedupOk (xs ++ ys) = true := by
  induction xs with
  | nil => simpa using hy
  | cons a t ih =>
    simp only [dedupOk, Bool.and_eq_true] at hx
    rw [List.cons_append]
    show (noSameKindLine a (t ++ ys) && dedupOk (t ++ ys)) = true
    rw [noSameKindLine_append]
    simp only [Bool.and_eq_true]
    exact ⟨⟨hx.1, hcross a (List.mem_cons_self a t)⟩,
      ih hx.2 (fun x hxm => hcross x (List.mem_cons_of_mem a hxm))⟩

/-- The last element of a list is a member. -/
theorem getLast?_mem_self {α : Type} : ∀ (ls : List α) (m : α),
    ls.getLast? = some m → m ∈ ls
  | [], m, h => by simp at h
  | [a], m, h => by simp_all
  | a :: b :: t, m, h => by
    rw [List.getLast?_cons_cons] at h
    exact List.mem_cons_of_mem a (getLast?_mem_self (b :: t) m h)

/-- In a lens list sorted by anchor line, every member anchors at or before
the last element. -/
theorem le_lensLine_getLast : ∀ (ls : List GitCodeLens) (m l : GitCodeLens),
    List.Pairwise (fun a b => lensLine a ≤ lensLine b) ls →
    ls.getLast? = some m → l ∈ ls → lensLine l ≤ lensLine m
  | [], _, _, _, h, _ => by simp at h
  | [a], m, l, _, h, hl => by
    simp_all
  | a :: b :: t, m, l, hpw, h, hl => by
    rw [List.getLast?_cons_cons] at h
    rcases List.mem_cons.1 hl with rfl | hl'
    · exact (List.pairwise_cons.1 hpw).1 m (getLast?_mem_self _ m h)
    · exact le_lensLine_getLast (b :: t) m l (List.pairwise_cons.1 hpw).2 h hl'

/-- The pass invariant is monotone in the line bound. -/
theorem PassInv_mono (lenses : List GitCodeLens) (B B' : Nat)
    (h : PassInv lenses B) (hB : B ≤ B') : PassInv lenses B' :=
  ⟨h.1, h.2.1, fun l hl => le_trans (h.2.2.1 l hl) hB, h.2.2.2⟩

/-- Under the pass invariant with bound at most `L`, a failed dedup check
at `L` means no lens at all anchors at line `L`: the lens list is sorted,
so a lens at `L` would force the last lens to sit at `L` as well. -/
theorem PassInv_no_lens_at (lenses : List GitCodeLens) (B L : Nat)
    (h : PassInv lenses B) (hBL : B ≤ L)
    (hdup : duplicateOfLast lenses L = false) :
    ∀ l ∈ lenses, lensLine l ≠ L := by
  intro l hl hEq
  obtain ⟨hded, hsort, hbound, hanch⟩ := h
  have hne : lenses ≠ [] := List.ne_nil_of_mem hl
  obtain ⟨m, hm⟩ := Option.isSome_iff_exists.1 (List.getLast?_isSome.mpr hne)
  have h1 : lensLine l ≤ lensLine m := le_lensLine_getLast lenses m l hsort hm hl
  have h2 : lensLine m ≤ B := hbound m (getLast?_mem_self lenses m hm)
  have hmL : lensLine m = L := le_antisymm (le_trans h2 hBL) (hEq ▸ h1)
  rw [duplicateOfLast, hm] at hdup
  simp only [lensLine] at hmL
  simp [hmL] at hdup

/-- Appending a group of mutually dedup-clean lenses, all anchored on one
single line `L` that no existing lens occupies, preserves the invariant. -/
theorem PassInv_extend (lenses : List GitCodeLens) (B L : Nat)
    (extra : List GitCodeLens)
    (hinv : PassInv lenses B) (hBL : B ≤ L)
    (hnotL : ∀ l ∈ lenses, lensLine l ≠ L)
    (hex : ∀ l ∈ extra, lensLine l = L ∧ l.range.start.line = l.range.end_.line)
    (hexd : dedupOk extra = true) :
    PassInv (lenses ++ extra) L := by
  obtain ⟨hded, hsort, hbound, hanch⟩ := hinv
  refine ⟨?_, ?_, ?_, ?_⟩
  · refine dedupOk_append lenses extra hded hexd (fun x hx => ?_)
    simp only [noSameKindLine, List.all_eq_true]
    intro y hy
    have hyL := (hex y hy).1
    have hxL := hnotL x hx
    simp [lensLine] at hyL hxL ⊢
    exact Or.inr (fun h => hxL (by rw [h, hyL]))
  · rw [List.pairwise_append]
    refine ⟨hsort, ?_, fun a ha b hb => ?_⟩
    · exact List.pairwise_of_forall_mem_list
        (fun a ha b hb => le_of_eq ((hex a ha).1.trans (hex b hb).1.symm))
    · exact le_trans (le_trans (hbound a ha) hBL) (le_of_eq (hex b hb).1.symm)
  · intro l hl
    rcases List.mem_append.1 hl with hl | hl
    · exact le_trans (hbound l hl) hBL
    · exact le_of_eq (hex l hl).1
  · intro l hl
    rcases List.mem_append.1 hl with hl | hl
    · exact hanch l hl
    · exact (hex l hl).2

/-- The group a symbol emits is internally dedup-clean, anchors at the
symbol's start line, and each anchor range sits on that single line. -/
theorem emitGroup_props (cfg : CodeLensConfig) (documentIsDirty : Bool)
    (document : TextDocument) (symbol : SymbolInformation) (br : Range) (cell : Nat) :
    dedupOk (emitGroup cfg documentIsDirty document symbol br cell) = true ∧
    ∀ l ∈ emitGroup cfg documentIsDirty document symbol br cell,
      lensLine l = symbol.range.start.line ∧
      l.range.start.line = l.range.end_.line := by
  unfold emitGroup
  by_cases h1 : (documentIsDirty || cfg.recentChange.enabled) = true <;>
    by_cases h2 : (cfg.authors.enabled && authorsMultiline document symbol br &&
      !documentIsDirty) = true <;>
    simp [h1, h2, dedupOk, noSameKindLine, lensLine]

/-- The whole-file group is internally dedup-clean and anchors at line 0 on
single-line ranges. -/
theorem wholeFileGroup_props (cfg : CodeLensConfig) (documentIsDirty : Bool)
    (document : TextDocument) (cell : Nat) :
    dedupOk (wholeFileGroup cfg documentIsDirty document cell) = true ∧
    ∀ l ∈ wholeFileGroup cfg documentIsDirty document cell,
      lensLine l = 0 ∧ l.range.start.line = l.range.end_.line := by
  unfold wholeFileGroup
  by_cases h1 : (documentIsDirty || cfg.recentChange.enabled) = true <;>
    by_cases h2 : (cfg.authors.enabled && !documentIsDirty) = true <;>
    simp [h1, h2, dedupOk, noSameKindLine, lensLine]

/-- One per-symbol step preserves the pass invariant, moving the bound up
to the symbol's start line. -/
theorem step_preserves_PassInv (cfg : CodeLensConfig) (documentIsDirty : Bool)
    (document : TextDocument) (ll : ICodeLensLanguageLocation)
    (symbol : SymbolInformation) (st : ProvideState) (B : Nat)
    (hinv : PassInv st.lenses B) (hBL : B ≤ symbol.range.start.line) :
    PassInv (_provideCodeLens cfg documentIsDirty document symbol ll st).lenses
      symbol.range.start.line := by
  cases hval : _validateSymbolAndGetBlameRange document symbol ll with
  | none =>
    rw [provideCodeLens_skip cfg documentIsDirty document symbol ll st (Or.inl hval)]
    exact PassInv_mono _ _ _ hinv hBL
  | some br =>
    by_cases hdup : duplicateOfLast st.lenses symbol.range.start.line = true
    · rw [provideCodeLens_skip cfg documentIsDirty document symbol ll st (Or.inr hdup)]
      exact PassInv_mono _ _ _ hinv hBL
    · have hdup' : duplicateOfLast st.lenses symbol.range.start.line = false := by
        simpa using hdup
      rw [provideCodeLens_eq_append_emitGroup cfg documentIsDirty document symbol ll
        st br hval hdup']
      obtain ⟨hgd, hgm⟩ := emitGroup_props cfg documentIsDirty document symbol br st.nextCell
      exact PassInv_extend st.lenses B symbol.range.start.line _ hinv hBL
        (PassInv_no_lens_at st.lenses B symbol.range.start.line hinv hBL hdup') hgm hgd

/-- Folding the per-symbol step over a document-ordered symbol list yields
a lens list satisfying the pass invariant for some bound. -/
theorem foldl_preserves_PassInv (cfg : CodeLensConfig) (documentIsDirty : Bool)
    (document : TextDocument) (ll : ICodeLensLanguageLocation) :
    ∀ (symbols : List SymbolInformation) (st : ProvideState) (B : Nat),
    PassInv st.lenses B →
    List.Pairwise (fun a b : SymbolInformation =>
      a.range.start.line ≤ b.range.start.line) symbols →
    (∀ s ∈ symbols, B ≤ s.range.start.line) →
    ∃ B', PassInv ((symbols.foldl (fun st sym =>
      _provideCodeLens cfg documentIsDirty document sym ll st) st).lenses) B'
  | [], _, B, hinv, _, _ => ⟨B, hinv⟩
  | s :: t, st, B, hinv, hpw, hge => by
    rw [List.foldl_cons]
    obtain ⟨h1, h2⟩ := List.pairwise_cons.1 hpw
    exact foldl_preserves_PassInv cfg documentIsDirty document ll t _ s.range.start.line
      (step_preserves_PassInv cfg documentIsDirty document ll s st B hinv
        (hge s (List.mem_cons_self s t))) h2 h1

/-- The whole-file step keeps the lens list dedup-clean: it only appends
when no lens anchors at line 0, and its group sits entirely on line 0. -/
theorem wholeFileStep_dedupOk (cfg : CodeLensConfig) (documentIsDirty : Bool)
    (document : TextDocument) (ll : ICodeLensLanguageLocation)
    (st : ProvideState) (B : Nat) (hinv : PassInv st.lenses B) :
    dedupOk (wholeFileStep cfg documentIsDirty document ll st).lenses = true := by
  by_cases hreq : wantsWholeFileLens ll = true
  · by_cases hfree : hasLineZeroLens st.lenses = true
    · rw [wholeFileStep_skip cfg documentIsDirty document ll st (Or.inr hfree)]
      exact hinv.1
    · have hfree' : hasLineZeroLens st.lenses = false := by simpa using hfree
      rw [wholeFileStep_eq_append_group cfg documentIsDirty document ll st hreq hfree']
      obtain ⟨hgd, hgm⟩ := wholeFileGroup_props cfg documentIsDirty document st.nextCell
      refine dedupOk_append _ _ hinv.1 hgd (fun x hx => ?_)
      have hx0 : x.range.start.line ≠ 0 := by
        intro h0
        have hanch := hinv.2.2.2 x hx
        have hend : x.range.end_.line = 0 := by rw [← hanch]; exact h0
        have : hasLineZeroLens st.lenses = true := by
          simp only [hasLineZeroLens, List.find?_isSome]
          exact ⟨x, hx, by simp [h0, hend]⟩
        rw [this] at hfree'
        cases hfree'
      simp only [noSameKindLine, List.all_eq_true]
      intro y hy
      have hy0 := (hgm y hy).1
      simp only [lensLine] at hy0
      simp only [Bool.not_eq_true']
      rw [Bool.and_eq_false_iff]
      right
      rw [beq_eq_false_iff_ne]
      rw [lensLine, lensLine, hy0]
      exact hx0
  · have hreq' : wantsWholeFileLens ll = false := by simpa using hreq
    rw [wholeFileStep_skip cfg documentIsDirty document ll st (Or.inl hreq')]
    exact hinv.1

/-- Counterexample to C1 as stated: the dedup check only looks at the
immediately preceding emitted lens, so a symbol list that is not in
document order (start lines 5, 10, 5) produces two recent-change lenses
anchored at line 5. -/
theorem C1_counterexample :
    dedupOk (provideCodeLenses cfgBlocksRecentOnly docPlain (some blameOneLine)
      symbolsOutOfOrder) = false := by decide

/-- C1 amended: for every symbol list in document order (start lines
nondecreasing), the resulting lens sequence never contains two lenses of
the same kind anchored at the same starting line. -/
theorem C1_amended_dedup_for_ordered_symbols (cfg : CodeLensConfig)
    (document : TextDocument) (blame : Option GitBlame)
    (symbols : List SymbolInformation)
    (hsorted : List.Pairwise (fun a b : SymbolInformation =>
      a.range.start.line ≤ b.range.start.line) symbols) :
    dedupOk (provideCodeLenses cfg document blame symbols) = true := by
  have hinv0 : PassInv (({ lenses := [], nextCell := 0 } : ProvideState)).lenses 0 :=
    ⟨rfl, List.Pairwise.nil, by simp, by simp⟩
  simp only [provideCodeLenses]
  cases blame with
  | none => split <;> rfl
  | some b =>
    by_cases hempty : (b.lines.length == 0) = true
    · split <;> simp [hempty] <;> rfl
    · have hempty' : (b.lines.length == 0) = false := by simpa using hempty
      split
      · simp only [hempty', Bool.false_eq_true, if_false]
        exact wholeFileStep_dedupOk cfg document.isDirty document
          (resolveLanguageLocations cfg document) ⟨[], 0⟩ 0 hinv0
      · simp only [hempty', Bool.false_eq_true, if_false]
        obtain ⟨B', hinv'⟩ := foldl_preserves_PassInv cfg document.isDirty document
          (resolveLanguageLocations cfg document) symbols ⟨[], 0⟩ 0 hinv0 hsorted
          (fun s _ => Nat.zero_le _)
        exact wholeFileStep_dedupOk cfg document.isDirty document
          (resolveLanguageLocations cfg document) _ B' hinv'

/-- Witness for C1 amended at a concrete document-ordered symbol list
(start lines 2, 5, 5, 10) with both annotation kinds enabled. -/
theorem C1_amended_dedup_for_ordered_symbols_witness :
    dedupOk (provideCodeLenses cfgBlocksBoth docPlain (some blameOneLine)
      symbolsInOrder) = true :=
  C1_amended_dedup_for_ordered_symbols cfgBlocksBoth docPlain (some blameOneLine)
    symbolsInOrder (by decide)

/-- Counterexample to C3 as stated: an eligible `Package` symbol reported
at lines 2-4 keeps its own range as blame range; it is not widened to span
the entire document. -/
theorem C3_counterexample :
    _validateSymbolAndGetBlameRange docPlain packageSymMid llContainers =
      some packageSymMid.range ∧
    packageSymMid.range ≠ fullDocumentRange docPlain := by
  constructor
  · decide
  · decide

/-- C3 amended: an eligible `File` symbol always gets the whole-document
blame range; an eligible `Package` symbol gets it only when its reported
range both starts and ends at line 0, and otherwise keeps its reported
range. -/
theorem C3_amended_widening_rule (document : TextDocument)
    (symbol : SymbolInformation) (languageLocation : ICodeLensLanguageLocation) :
    (symbol.kind = SymbolKind.File →
      ∀ r, _validateSymbolAndGetBlameRange document symbol languageLocation = some r →
        r = fullDocumentRange document) ∧
    (symbol.kind = SymbolKind.Package → symbol.range.start.line = 0 →
        symbol.range.end_.line = 0 →
      ∀ r, _validateSymbolAndGetBlameRange document symbol languageLocation = some r →
        r = fullDocumentRange document) ∧
    (symbol.kind = SymbolKind.Package →
        ¬(symbol.range.start.line = 0 ∧ symbol.range.end_.line = 0) →
      ∀ r, _validateSymbolAndGetBlameRange document symbol languageLocation = some r →
        r = symbol.range) := by
  refine ⟨fun hk r hr => ?_, fun hk h0 h1 r hr => ?_, fun hk h01 r hr => ?_⟩
  · by_cases hcont : languageLocation.locations.contains CodeLensLocations.Containers <;>
      by_cases hcust : languageLocation.locations.contains CodeLensLocations.Custom <;>
      by_cases hmatch : customSymbolsMatch languageLocation symbol.kind <;>
      simp_all [_validateSymbolAndGetBlameRange]
  · by_cases hcont : languageLocation.locations.contains CodeLensLocations.Containers <;>
      by_cases hcust : languageLocation.locations.contains CodeLensLocations.Custom <;>
      by_cases hmatch : customSymbolsMatch languageLocation symbol.kind <;>
      simp_all [_validateSymbolAndGetBlameRange]
  · rw [Decidable.not_and_iff_or_not] at h01
    by_cases hcont : languageLocation.locations.contains CodeLensLocations.Containers <;>
      by_cases hcust : languageLocation.locations.contains CodeLensLocations.Custom <;>
      by_cases hmatch : customSymbolsMatch languageLocation symbol.kind <;>
      rcases h01 with h01 | h01 <;>
      simp_all [_validateSymbolAndGetBlameRange]

/-- Witness for C3 amended: a file symbol eligible under `Containers` gets
exactly the whole-document blame range of the test document (lines 0-11,
six-character lines). -/
theorem C3_amended_widening_rule_witness :
    (⟨⟨0, 6⟩, ⟨11, 6⟩⟩ : Range) = fullDocumentRange docPlain :=
  (C3_amended_widening_rule docPlain
      { kind := SymbolKind.File, range := ⟨⟨0, 0⟩, ⟨0, 1⟩⟩ } llContainers).1 rfl
    ⟨⟨0, 6⟩, ⟨11, 6⟩⟩ (by decide)

/-- Counterexample to C4 as stated: in a csharp document an eligible
single-line `Property` symbol (a callable-like kind other than `File`) with
only authors lenses enabled produces no lens at all: the hack's switch
omits `Property`, so no authors lens is emitted. -/
theorem C4_counterexample :
    _validateSymbolAndGetBlameRange docCSharp propertySymSingleLine llBlocks =
      some propertySymSingleLine.range ∧
    (_provideCodeLens cfgBlocksAuthorsOnly false docCSharp propertySymSingleLine
      llBlocks ⟨[], 0⟩).lenses = [] := by
  constructor
  · decide
  · decide

/-- On a dirty document a symbol's emit group is exactly one recent-change
lens: the recent-change push short-circuits on the dirty flag and the
authors push is suppressed. -/
theorem emitGroup_dirty (cfg : CodeLensConfig) (document : TextDocument)
    (symbol : SymbolInformation) (br : Range) (cell : Nat) :
    emitGroup cfg true document symbol br cell =
      [{ kind := LensKind.RecentChange, symbolKind := symbol.kind
         blameRange := br, isFullRange := false
         range := ⟨⟨symbol.range.start.line,
                    document.lineLength symbol.range.start.line - 1⟩,
                  ⟨symbol.range.start.line,
                    document.lineLength symbol.range.start.line⟩⟩
         cellId := cell }] := by
  unfold emitGroup
  simp

/-- On a dirty document the whole-file group is exactly one recent-change
lens. -/
theorem wholeFileGroup_dirty (cfg : CodeLensConfig) (document : TextDocument)
    (cell : Nat) :
    wholeFileGroup cfg true document cell =
      [{ kind := LensKind.RecentChange, symbolKind := SymbolKind.File
         blameRange := fullDocumentRange document, isFullRange := true
         range := ⟨⟨0, 0⟩, ⟨0, (fullDocumentRange document).start.character⟩⟩
         cellId := cell }] := by
  unfold wholeFileGroup
  simp

/-- One dirty per-symbol step preserves "all lenses are recent-change". -/
theorem step_dirty_only_recent (cfg : CodeLensConfig) (document : TextDocument)
    (ll : ICodeLensLanguageLocation) (symbol : SymbolInformation) (st : ProvideState)
    (h : ∀ l ∈ st.lenses, l.kind = LensKind.RecentChange) :
    ∀ l ∈ (_provideCodeLens cfg true document symbol ll st).lenses,
      l.kind = LensKind.RecentChange := by
  cases hval : _validateSymbolAndGetBlameRange document symbol ll with
  | none =>
    rw [provideCodeLens_skip cfg true document symbol ll st (Or.inl hval)]
    exact h
  | some br =>
    by_cases hdup : duplicateOfLast st.lenses symbol.range.start.line = true
    · rw [provideCodeLens_skip cfg true document symbol ll st (Or.inr hdup)]
      exact h
    · have hdup' : duplicateOfLast st.lenses symbol.range.start.line = false := by
        simpa using hdup
      rw [provideCodeLens_eq_append_emitGroup cfg true document symbol ll st br hval hdup']
      intro l hl
      rcases List.mem_append.1 hl with hl | hl
      · exact h l hl
      · rw [emitGroup_dirty] at hl
        simp only [List.mem_singleton] at hl
        rw [hl]

/-- The dirty per-symbol fold preserves "all lenses are recent-change". -/
theorem foldl_dirty_only_recent (cfg : CodeLensConfig) (document : TextDocument)
    (ll : ICodeLensLanguageLocation) :
    ∀ (symbols : List SymbolInformation) (st : ProvideState),
    (∀ l ∈ st.lenses, l.kind = LensKind.RecentChange) →
    ∀ l ∈ (symbols.foldl (fun st sym =>
      _provideCodeLens cfg true document sym ll st) st).lenses,
      l.kind = LensKind.RecentChange
  | [], _, h => h
  | s :: t, st, h => by
    rw [List.foldl_cons]
    exact foldl_dirty_only_recent cfg document ll t _
      (step_dirty_only_recent cfg document ll s st h)

/-- The dirty whole-file step preserves "all lenses are recent-change". -/
theorem wholeFileStep_dirty_only_recent (cfg : CodeLensConfig)
    (document : TextDocument) (ll : ICodeLensLanguageLocation) (st : ProvideState)
    (h : ∀ l ∈ st.lenses, l.kind = LensKind.RecentChange) :
    ∀ l ∈ (wholeFileStep cfg true document ll st).lenses,
      l.kind = LensKind.RecentChange := by
  by_cases hreq : wantsWholeFileLens ll = true
  · by_cases hfree : hasLineZeroLens st.lenses = true
    · rw [wholeFileStep_skip cfg true document ll st (Or.inr hfree)]
      exact h
    · have hfree' : hasLineZeroLens st.lenses = false := by simpa using hfree
      rw [wholeFileStep_eq_append_group cfg true document ll st hreq hfree']
      intro l hl
      rcases List.mem_append.1 hl with hl | hl
      · exact h l hl
      · rw [wholeFileGroup_dirty] at hl
        simp only [List.mem_singleton] at hl
        rw [hl]
  · have hreq' : wantsWholeFileLens ll = false := by simpa using hreq
    rw [wholeFileStep_skip cfg true document ll st (Or.inl hreq')]
    exact h

/-- C2: with unsaved edits (`documentIsDirty = true`) the placement pass
emits no authors lens at all (every produced lens is a recent-change
lens, for the per-symbol groups as well as the whole-file group), while a
recent-change lens is still emitted for every symbol that passes the
eligibility and dedup checks. -/
theorem C2_dirty_suppresses_authors_keeps_recent (cfg : CodeLensConfig)
    (document : TextDocument) (blame : Option GitBlame)
    (symbols : List SymbolInformation) (ll : ICodeLensLanguageLocation)
    (symbol : SymbolInformation) (st : ProvideState) (br : Range)
    (hdirty : document.isDirty = true)
    (hval : _validateSymbolAndGetBlameRange document symbol ll = some br)
    (hdup : duplicateOfLast st.lenses symbol.range.start.line = false) :
    (∀ l ∈ provideCodeLenses cfg document blame symbols,
      l.kind = LensKind.RecentChange) ∧
    (∃ lens, (_provideCodeLens cfg true document symbol ll st).lenses =
        st.lenses ++ [lens] ∧ lens.kind = LensKind.RecentChange ∧
        lensLine lens = symbol.range.start.line) := by
  constructor
  · simp only [provideCodeLenses, hdirty]
    cases blame with
    | none => split <;> simp
    | some b =>
      by_cases hempty : (b.lines.length == 0) = true
      · split <;> simp [hempty]
      · have hempty' : (b.lines.length == 0) = false := by simpa using hempty
        split
        · simp only [hempty', Bool.false_eq_true, if_false]
          exact wholeFileStep_dirty_only_recent cfg document
            (resolveLanguageLocations cfg document) ⟨[], 0⟩ (by simp)
        · simp only [hempty', Bool.false_eq_true, if_false]
          exact wholeFileStep_dirty_only_recent cfg document
            (resolveLanguageLocations cfg document) _
            (foldl_dirty_only_recent cfg document
              (resolveLanguageLocations cfg document) symbols ⟨[], 0⟩ (by simp))
  · rw [provideCodeLens_eq_append_emitGroup cfg true document symbol ll st br hval hdup,
      emitGroup_dirty]
    exact ⟨_, rfl, rfl, rfl⟩

/-- Witness for C2 at a concrete dirty document: both annotation kinds
enabled, eligible function symbols in order, and one explicit per-symbol
step. -/
theorem C2_dirty_suppresses_authors_keeps_recent_witness :
    (∀ l ∈ provideCodeLenses cfgBlocksBoth docPlainDirty (some blameOneLine)
        symbolsInOrder, l.kind = LensKind.RecentChange) ∧
    (∃ lens, (_provideCodeLens cfgBlocksBoth true docPlainDirty (funcSym 5 6)
        llBlocks ⟨[], 0⟩).lenses =
      (⟨[], 0⟩ : ProvideState).lenses ++ [lens] ∧
      lens.kind = LensKind.RecentChange ∧
      lensLine lens = (funcSym 5 6).range.start.line) :=
  C2_dirty_suppresses_authors_keeps_recent cfgBlocksBoth docPlainDirty
    (some blameOneLine) symbolsInOrder llBlocks (funcSym 5 6) ⟨[], 0⟩
    ⟨⟨5, 0⟩, ⟨6, 0⟩⟩ rfl (by decide) rfl

/-- C4 amended: with authors lenses enabled on a clean document, a symbol
that passed the eligibility and dedup checks gets an authors lens exactly
when its blame range spans more than one line, or the document is csharp
and the symbol kind is one of Package, Module, Namespace, Class,
Interface, Constructor, Method, Function, Enum (the hack's switch; File,
Property, Struct and other kinds are not covered); the recent-change lens
of the same symbol is emitted exactly when its annotation kind is
enabled. -/
theorem C4_amended_authors_single_line_gate (cfg : CodeLensConfig)
    (document : TextDocument) (ll : ICodeLensLanguageLocation)
    (symbol : SymbolInformation) (st : ProvideState) (br : Range)
    (hval : _validateSymbolAndGetBlameRange document symbol ll = some br)
    (hdup : duplicateOfLast st.lenses symbol.range.start.line = false)
    (hauth : cfg.authors.enabled = true) :
    (((_provideCodeLens cfg false document symbol ll st).lenses.drop
        st.lenses.length).any (fun l => l.kind == LensKind.Authors) =
      (!br.isSingleLine ||
        (document.languageId == "csharp" &&
          csharpSymbolTreatedAsMultiline symbol.kind))) ∧
    (((_provideCodeLens cfg false document symbol ll st).lenses.drop
        st.lenses.length).any (fun l => l.kind == LensKind.RecentChange) =
      cfg.recentChange.enabled) := by
  rw [provideCodeLens_eq_append_emitGroup cfg false document symbol ll st br hval hdup,
    List.drop_left]
  unfold emitGroup authorsMultiline
  constructor <;>
    by_cases h1 : cfg.recentChange.enabled = true <;>
    by_cases h2 : br.isSingleLine = true <;>
    by_cases h3 : document.languageId == "csharp" <;>
    by_cases h4 : csharpSymbolTreatedAsMultiline symbol.kind = true <;>
    simp_all

/-- Witness for C4 amended: a single-line csharp `Method` symbol still
gets an authors lens (the hack covers `Method`), and no recent-change lens
in an authors-only configuration. -/
theorem C4_amended_authors_single_line_gate_witness :
    (((_provideCodeLens cfgBlocksAuthorsOnly false docCSharp methodSymSingleLine
        llBlocks ⟨[], 0⟩).lenses.drop
          (⟨[], 0⟩ : ProvideState).lenses.length).any
        (fun l => l.kind == LensKind.Authors) =
      (!(⟨⟨3, 0⟩, ⟨3, 4⟩⟩ : Range).isSingleLine ||
        (docCSharp.languageId == "csharp" &&
          csharpSymbolTreatedAsMultiline methodSymSingleLine.kind))) ∧
    (((_provideCodeLens cfgBlocksAuthorsOnly false docCSharp methodSymSingleLine
        llBlocks ⟨[], 0⟩).lenses.drop
          (⟨[], 0⟩ : ProvideState).lenses.length).any
        (fun l => l.kind == LensKind.RecentChange) =
      cfgBlocksAuthorsOnly.recentChange.enabled) :=
  C4_amended_authors_single_line_gate cfgBlocksAuthorsOnly docCSharp llBlocks
    methodSymSingleLine ⟨[], 0⟩ ⟨⟨3, 0⟩, ⟨3, 4⟩⟩ (by decide) rfl rfl

/-- Once a value is cached, every further call returns it and leaves the
cell and the execution counter untouched. -/
theorem OnceThunk_calls_cached {α : Type} (g : Nat → α × Nat) (v : α) :
    ∀ (n k : Nat), (OnceThunk.mk g (some v)).calls k n =
      (List.replicate n v, ⟨g, some v⟩, k)
  | 0, _ => rfl
  | n + 1, k => by
    simp [OnceThunk.calls, OnceThunk.call, OnceThunk_calls_cached g v n k,
      List.replicate_succ]

/-- A once-wrapped instrumented computation, called any positive number of
times, returns the same value every time and runs its body exactly once
(the execution counter advances by exactly one). -/
theorem OnceThunk_calls_once {α : Type} (f : Unit → α) (k : Nat) :
    ∀ n, 1 ≤ n → (Functions.once (countingThunk f)).calls k n =
      (List.replicate n (f ()), ⟨countingThunk f, some (f ())⟩, k + 1)
  | 0, h => absurd h (by simp)
  | n + 1, _ => by
    simp [Functions.once, OnceThunk.calls, OnceThunk.call, countingThunk,
      OnceThunk_calls_cached, List.replicate_succ]

/-- C5: the recent-change and authors lenses created for one symbol share
a single memoization cell, and a once-wrapped blame computation called
repeatedly runs at most once and returns the identical cached result on
every call. -/
theorem C5_shared_memo_cell_and_idempotence {α : Type} (cfg : CodeLensConfig)
    (document : TextDocument) (ll : ICodeLensLanguageLocation)
    (symbol : SymbolInformation) (st : ProvideState) (br : Range)
    (f : Unit → α) (k n : Nat)
    (hval : _validateSymbolAndGetBlameRange document symbol ll = some br)
    (hdup : duplicateOfLast st.lenses symbol.range.start.line = false)
    (hrc : cfg.recentChange.enabled = true) (hauth : cfg.authors.enabled = true)
    (hml : authorsMultiline document symbol br = true) (hn : 1 ≤ n) :
    (∃ rc auth, (_provideCodeLens cfg false document symbol ll st).lenses =
      st.lenses ++ [rc, auth] ∧ rc.kind = LensKind.RecentChange ∧
      auth.kind = LensKind.Authors ∧ rc.cellId = auth.cellId) ∧
    (Functions.once (countingThunk f)).calls k n =
      (List.replicate n (f ()), ⟨countingThunk f, some (f ())⟩, k + 1) := by
  constructor
  · rw [provideCodeLens_eq_append_emitGroup cfg false document symbol ll st br hval hdup]
    have hg : emitGroup cfg false document symbol br st.nextCell =
      [{ kind := LensKind.RecentChange, symbolKind := symbol.kind
         blameRange := br, isFullRange := false
         range := ⟨⟨symbol.range.start.line,
                    document.lineLength symbol.range.start.line - 1⟩,
                  ⟨symbol.range.start.line,
                    document.lineLength symbol.range.start.line⟩⟩
         cellId := st.nextCell },
       { kind := LensKind.Authors, symbolKind := symbol.kind
         blameRange := br, isFullRange := false
         range := ⟨⟨symbol.range.start.line,
                    document.lineLength symbol.range.start.line - 1 + 1⟩,
                  ⟨symbol.range.start.line,
                    document.lineLength symbol.range.start.line⟩⟩
         cellId := st.nextCell }] := by
      unfold emitGroup
      simp [hrc, hauth, hml]
    rw [hg]
    exact ⟨_, _, rfl, rfl, rfl, rfl⟩
  · exact OnceThunk_calls_once f k n hn

/-- Witness for C5: a two-line function symbol with both kinds enabled
produces a shared-cell lens pair, and two calls of a once-wrapped
computation run it exactly once. -/
theorem C5_shared_memo_cell_and_idempotence_witness :
    (∃ rc auth, (_provideCodeLens cfgBlocksBoth false docPlain (funcSym 5 6)
        llBlocks ⟨[], 0⟩).lenses =
      (⟨[], 0⟩ : ProvideState).lenses ++ [rc, auth] ∧
      rc.kind = LensKind.RecentChange ∧ auth.kind = LensKind.Authors ∧
      rc.cellId = auth.cellId) ∧
    (Functions.once (countingThunk (fun _ => (7 : Nat)))).calls 0 2 =
      (List.replicate 2 7, ⟨countingThunk (fun _ => (7 : Nat)), some 7⟩, 0 + 1) :=
  C5_shared_memo_cell_and_idempotence cfgBlocksBoth docPlain llBlocks
    (funcSym 5 6) ⟨[], 0⟩ ⟨⟨5, 0⟩, ⟨6, 0⟩⟩ (fun _ => (7 : Nat)) 0 2
    (by decide) rfl rfl rfl (by decide) (by decide)

/-- C10: on a dirty document a recent-change lens is emitted even when the
recent-change annotation kind is disabled, both per eligible symbol and
for the whole-file placement, and resolving it in an authors-only
configuration still yields the authors-only unsaved-changes notice with no
action attached. -/
theorem C10_dirty_overrides_disabled_recent_change (cfg : CodeLensConfig)
    (strings : UnsavedChangesStrings) (fromNow : GitBlameCommit → String)
    (document : TextDocument) (ll : ICodeLensLanguageLocation)
    (symbol : SymbolInformation) (st st2 : ProvideState) (br : Range)
    (rlens : GitCodeLens) (rblame : Option GitBlameLines)
    (hrc : cfg.recentChange.enabled = false)
    (hval : _validateSymbolAndGetBlameRange document symbol ll = some br)
    (hdup : duplicateOfLast st.lenses symbol.range.start.line = false)
    (hreq : wantsWholeFileLens ll = true)
    (hfree : hasLineZeroLens st2.lenses = false) :
    (∃ lens, (_provideCodeLens cfg true document symbol ll st).lenses =
      st.lenses ++ [lens] ∧ lens.kind = LensKind.RecentChange) ∧
    (∃ lens, (wholeFileStep cfg true document ll st2).lenses =
      st2.lenses ++ [lens] ∧ lens.kind = LensKind.RecentChange ∧
      lens.isFullRange = true) ∧
    (_resolveGitRecentChangeCodeLens cfg strings true fromNow rlens rblame =
      some { title := strings.authorsOnly, command := none, arguments := none }) := by
  refine ⟨?_, ?_, ?_⟩
  · rw [provideCodeLens_eq_append_emitGroup cfg true document symbol ll st br hval hdup,
      emitGroup_dirty]
    exact ⟨_, rfl, rfl⟩
  · rw [wholeFileStep_eq_append_group cfg true document ll st2 hreq hfree,
      wholeFileGroup_dirty]
    exact ⟨_, rfl, rfl, rfl⟩
  · simp [_resolveGitRecentChangeCodeLens, hrc]

/-- Witness for C10: an authors-only configuration on a dirty document
still produces the degraded recent-change lenses and title. -/
theorem C10_dirty_overrides_disabled_recent_change_witness :
    (∃ lens, (_provideCodeLens cfgBlocksAuthorsOnly true docPlainDirty
        (funcSym 5 6) llBlocksAndDocument ⟨[], 0⟩).lenses =
      (⟨[], 0⟩ : ProvideState).lenses ++ [lens] ∧
      lens.kind = LensKind.RecentChange) ∧
    (∃ lens, (wholeFileStep cfgBlocksAuthorsOnly true docPlainDirty
        llBlocksAndDocument ⟨[], 0⟩).lenses =
      (⟨[], 0⟩ : ProvideState).lenses ++ [lens] ∧
      lens.kind = LensKind.RecentChange ∧ lens.isFullRange = true) ∧
    (_resolveGitRecentChangeCodeLens cfgBlocksAuthorsOnly sampleStrings true
        (fun _ => "just now") sampleLens (some sampleBlameLines) =
      some { title := sampleStrings.authorsOnly, command := none, arguments := none }) :=
  C10_dirty_overrides_disabled_recent_change cfgBlocksAuthorsOnly sampleStrings
    (fun _ => "just now") docPlainDirty llBlocksAndDocument (funcSym 5 6) ⟨[], 0⟩ ⟨[], 0⟩
    ⟨⟨5, 0⟩, ⟨6, 0⟩⟩ sampleLens (some sampleBlameLines) rfl (by decide) rfl (by decide) rfl

end GitLens
